import Mathlib

/-!
Verification development for the Godash fleet-control core
(instance registry, audit log, metrics store, Prometheus parser,
fleet service). Go source is shallowly embedded: maps become
association lists, wall-clock reads and disk-write outcomes become
explicit parameters, and the registry's reader/writer lock becomes a
small operational model of Go's non-reentrant RWMutex.
-/

namespace Godash

/-- Decidable equality for `Except`, used to evaluate the embedded
functions' results on concrete inputs. -/
instance {ε α : Type} [DecidableEq ε] [DecidableEq α] : DecidableEq (Except ε α) := fun x y =>
  match x, y with
  | Except.ok a, Except.ok b =>
    if h : a = b then Decidable.isTrue (by rw [h])
    else Decidable.isFalse (by intro hh; injection hh; contradiction)
  | Except.error a, Except.error b =>
    if h : a = b then Decidable.isTrue (by rw [h])
    else Decidable.isFalse (by intro hh; injection hh; contradiction)
  | Except.ok _, Except.error _ => Decidable.isFalse (fun hh => Except.noConfusion hh)
  | Except.error _, Except.ok _ => Decidable.isFalse (fun hh => Except.noConfusion hh)

/-! ## RWMutex model (internal/caddy/instances.go)

Go's `sync.RWMutex` is not reentrant: `Lock` acquires only when no
writer and no reader holds the mutex, and `RLock` blocks while a
writer holds it, regardless of which goroutine that writer is.
A mutating store method takes the write lock and then calls `save`,
which takes the read lock on the same mutex. We model the sequence of
lock operations such a call performs and run it against the mutex
state; an acquisition whose precondition fails blocks the (single)
calling goroutine forever, which we model as `none`. -/

inductive LockOp where
  | lockW
  | unlockW
  | lockR
  | unlockR
deriving DecidableEq, Repr

structure LockState where
  writer : Bool
  readers : Nat
deriving DecidableEq, Repr

def lockStep (s : LockState) (op : LockOp) : Option LockState :=
  match op with
  | LockOp.lockW => if s.writer = false ∧ s.readers = 0 then some { s with writer := true } else none
  | LockOp.unlockW => some { s with writer := false }
  | LockOp.lockR => if s.writer = false then some { s with readers := s.readers + 1 } else none
  | LockOp.unlockR => some { s with readers := s.readers - 1 }

def runLockOps (s : LockState) : List LockOp → Option LockState
  | [] => some s
  | op :: rest =>
    match lockStep s op with
    | some s2 => runLockOps s2 rest
    | none => none

/-- Lock operations performed by `InstanceStore.save`:
`s.mu.RLock()` at entry, `s.mu.RUnlock()` via defer at exit. -/
def saveLockOps : List LockOp := [LockOp.lockR, LockOp.unlockR]

/-- Lock operations performed by `InstanceStore.Create`: `s.mu.Lock()`,
then the nested `s.save()` call's operations, then the deferred
`s.mu.Unlock()`. -/
def createLockOps : List LockOp := [LockOp.lockW] ++ saveLockOps ++ [LockOp.unlockW]

/-- Lock operations performed by `InstanceStore.Update` (same shape:
write lock around an in-memory update plus a nested `save`). -/
def updateLockOps : List LockOp := [LockOp.lockW] ++ saveLockOps ++ [LockOp.unlockW]

/-- Lock operations performed by `InstanceStore.Delete`. -/
def deleteLockOps : List LockOp := [LockOp.lockW] ++ saveLockOps ++ [LockOp.unlockW]

/-- Lock operations performed by `InstanceStore.UpdateStatus`. -/
def updateStatusLockOps : List LockOp := [LockOp.lockW] ++ saveLockOps ++ [LockOp.unlockW]

/-! ## Decimal rendering (fmt.Sprintf with the %d verb)

`generateID` renders the current `UnixNano` reading in decimal. A
fuel-based digit extraction keeps the definition kernel-reducible. -/

def natDigitsAux : Nat → Nat → List Nat
  | 0, _ => []
  | fuel + 1, n => if n = 0 then [] else (n % 10) :: natDigitsAux fuel (n / 10)

/-- Little-endian base-10 digits of `n` (empty for 0). -/
def natDigits (n : Nat) : List Nat := natDigitsAux n n

def digitsToChars (l : List Nat) : List Char := l.map (fun d => Char.ofNat (48 + d))

/-- Decimal rendering of a natural number, as produced by Go's
`fmt.Sprintf` with the `%d` verb. -/
def natDecRepr (n : Nat) : String :=
  if n = 0 then "0" else String.mk (digitsToChars (natDigits n)).reverse

/-- Helper decoding a digit-character run back to a number; used only
to establish injectivity of `natDecRepr`. -/
def decodeChars (l : List Char) : Nat := Nat.ofDigits 10 (l.map (fun c => c.toNat - 48))

/-! ## Instance registry data model (internal/caddy)

`CaddyInstance`, `InstanceRequest` and `InstanceStatus` mirror the Go
structs; `time.Time` fields become natural numbers. The Go map
`map[string]*CaddyInstance` becomes an association list with
overwrite-on-insert semantics, and the outcome of the disk write done
by `save` becomes an explicit boolean parameter, since the registry's
observable behavior branches on it. -/

inductive InstanceStatus where
  | online
  | offline
  | unknown
  | updating
deriving DecidableEq, Repr

structure CaddyInstance where
  id : String
  name : String
  url : String
  apiKeyFile : String
  status : InstanceStatus
  tags : List String
  lastPing : Nat
  createdAt : Nat
  updatedAt : Nat
deriving DecidableEq, Repr

structure InstanceRequest where
  name : String
  url : String
  apiKeyFile : String
  tags : List String
deriving DecidableEq, Repr

abbrev Registry : Type := List (String × CaddyInstance)

def mLookup (m : Registry) (k : String) : Option CaddyInstance :=
  (m.find? (fun p => p.1 == k)).map (fun p => p.2)

def mErase (m : Registry) (k : String) : Registry :=
  m.filter (fun p => p.1 != k)

def mInsert (m : Registry) (k : String) (v : CaddyInstance) : Registry :=
  mErase m k ++ [(k, v)]

/-- `generateID` from instances.go: `fmt.Sprintf("inst_%d", time.Now().UnixNano())`,
with the clock reading made an explicit argument. -/
def generateID (nowUnixNano : Nat) : String :=
  "inst_" ++ natDecRepr nowUnixNano

inductive StoreErr where
  | notFound
  | saveFailed
deriving DecidableEq, Repr

/-- `InstanceStore.Create`: build the descriptor with a generated id and
`status=unknown`, insert it into the map, then `save`; on a failed save
the new entry is deleted again and an error is returned. -/
def storeCreate (r : Registry) (req : InstanceRequest) (t : Nat) (saveOk : Bool) :
    Registry × Option CaddyInstance :=
  let id := generateID t
  let inst : CaddyInstance :=
    { id := id, name := req.name, url := req.url, apiKeyFile := req.apiKeyFile,
      status := InstanceStatus.unknown, tags := req.tags,
      lastPing := 0, createdAt := t, updatedAt := t }
  let r2 := mInsert r id inst
  if saveOk then (r2, some inst) else (mErase r2 id, none)

/-- The field assignments `InstanceStore.Update` performs on the stored
descriptor before calling `save`. -/
def applyInstanceRequest (inst : CaddyInstance) (req : InstanceRequest) (now : Nat) : CaddyInstance :=
  { inst with
    name := req.name, url := req.url, apiKeyFile := req.apiKeyFile,
    tags := req.tags, updatedAt := now }

/-- `InstanceStore.Update`: unknown id is an error; otherwise the
descriptor is mutated in place (through the shared pointer) and then
`save` runs. On a failed save only the error is returned: the
in-memory mutation is not undone. -/
def storeUpdate (r : Registry) (id : String) (req : InstanceRequest) (now : Nat) (saveOk : Bool) :
    Registry × Except StoreErr CaddyInstance :=
  match mLookup r id with
  | none => (r, Except.error StoreErr.notFound)
  | some inst =>
    let inst2 := applyInstanceRequest inst req now
    let r2 := mInsert r id inst2
    if saveOk then (r2, Except.ok inst2) else (r2, Except.error StoreErr.saveFailed)

/-- `InstanceStore.Delete`. -/
def storeDelete (r : Registry) (id : String) (saveOk : Bool) :
    Registry × Except StoreErr Unit :=
  match mLookup r id with
  | none => (r, Except.error StoreErr.notFound)
  | some _ =>
    let r2 := mErase r id
    if saveOk then (r2, Except.ok ()) else (r2, Except.error StoreErr.saveFailed)

/-- In-memory effect of `InstanceStore.UpdateStatus`: set status, stamp
`LastPing` and `UpdatedAt`. The subsequent `save` does not alter the
in-memory map whether it succeeds or fails, and `InstanceService`
callers of `UpdateStatus` discard its returned error. -/
def storeUpdateStatus (r : Registry) (id : String) (st : InstanceStatus) (now : Nat) :
    Registry × Bool :=
  match mLookup r id with
  | none => (r, false)
  | some inst =>
    (mInsert r id { inst with status := st, lastPing := now, updatedAt := now }, true)

/-! ## Remote ping and TestConnection (internal/caddy, internal/middleware)

`Client.Ping` issues `GET /id`; a transport-level failure surfaces the
wrapped error, and a response with a status other than 200 is also an
error (`unexpected status: %d`). The outcome of the remote exchange is
an explicit parameter. -/

inductive PingOutcome where
  | transportErr
  | httpStatus (code : Nat)
deriving DecidableEq, Repr

inductive PingErr where
  | netUnreachable
  | badStatus (code : Nat)
deriving DecidableEq, Repr

/-- `Client.Ping`. -/
def clientPing : PingOutcome → Except PingErr Unit
  | PingOutcome.transportErr => Except.error PingErr.netUnreachable
  | PingOutcome.httpStatus code =>
    if code = 200 then Except.ok () else Except.error (PingErr.badStatus code)

inductive TCResult where
  | ok
  | errNotFound
  | errClientBuild
  | errConnFailed (e : PingErr)
deriving DecidableEq, Repr

/-- `InstanceService.TestConnection`: resolve the descriptor, build a
client (`clientBuildOk` models whether reading the credential file
succeeds), ping; on ping error set status offline and surface the
error, on success set status online. -/
def testConnection (r : Registry) (id : String) (clientBuildOk : Bool)
    (ping : PingOutcome) (now : Nat) : Registry × TCResult :=
  match mLookup r id with
  | none => (r, TCResult.errNotFound)
  | some _ =>
    if clientBuildOk = false then (r, TCResult.errClientBuild)
    else
      match clientPing ping with
      | Except.error e =>
        ((storeUpdateStatus r id InstanceStatus.offline now).1, TCResult.errConnFailed e)
      | Except.ok _ =>
        ((storeUpdateStatus r id InstanceStatus.online now).1, TCResult.ok)

/-! ## Audit log (internal/caddy/audit.go)

The newline-delimited JSON file is modeled as the list of its
(well-formed) entry lines in file order; `Log` and `rotateIfNeeded`
only ever write whole well-formed lines. The id and timestamp that
`Log` assigns are explicit parameters (they come from the wall
clock). Go's conversion `string(rune(userID))` — the one the spec
flags — is modeled exactly, including the replacement character for
invalid code points. -/

structure AuditEntry where
  id : String
  timestamp : Nat
  userID : Int
  instanceID : String
  action : String
  success : Bool
deriving DecidableEq, Repr

/-- Go's `string(rune(n))` for an arbitrary integer: the character at
that code point, or U+FFFD when `n` is negative, a surrogate, or
beyond U+10FFFF. -/
def goStringOfRune (n : Int) : String :=
  if 0 ≤ n ∧ n ≤ 1114111 ∧ ¬(55296 ≤ n ∧ n ≤ 57343) then
    String.mk [Char.ofNat n.toNat]
  else "�"

/-- `AuditStore.readEntries`: parse every line, then reverse so the
newest entry comes first. -/
def readEntriesM (file : List AuditEntry) : List AuditEntry := file.reverse

/-- `AuditStore.rotateIfNeeded`: if the entry count exceeds the
configured maximum, rewrite the file from the reversed entry list,
keeping the slice `entries[len(entries)-maxEntries:]`. -/
def rotateIfNeeded (maxEntries : Nat) (file : List AuditEntry) : List AuditEntry :=
  let entries := readEntriesM file
  if entries.length ≤ maxEntries then file
  else entries.drop (entries.length - maxEntries)

/-- `AuditStore.Log`: assign id and timestamp, append one line to the
file, then rotate if needed. -/
def auditLog (maxEntries : Nat) (file : List AuditEntry) (e : AuditEntry)
    (assignedID : String) (ts : Nat) : List AuditEntry :=
  rotateIfNeeded maxEntries (file ++ [{ e with id := assignedID, timestamp := ts }])

/-- `AuditStore.matchesFilters`. The `user_id` arm only rejects an
entry when its `UserID` is nonzero and its `string(rune(UserID))` form
differs from the filter value; the `success` arm always rejects. -/
def matchesFilters (e : AuditEntry) : List (String × String) → Bool
  | [] => true
  | (key, value) :: rest =>
    match key with
    | "instance_id" => if e.instanceID ≠ value then false else matchesFilters e rest
    | "user_id" =>
      if e.userID ≠ 0 ∧ goStringOfRune e.userID ≠ value then false
      else matchesFilters e rest
    | "action" => if e.action ≠ value then false else matchesFilters e rest
    | "success" => false
    | _ => matchesFilters e rest

/-- The filter-and-collect loop of `AuditStore.GetEntries`: append each
matching entry, and break as soon as the collected count reaches the
limit (the count check runs every iteration, after the conditional
append). -/
def collectEntries (filters : List (String × String)) (limit : Int) :
    List AuditEntry → List AuditEntry → List AuditEntry
  | [], acc => acc
  | e :: rest, acc =>
    let acc2 := if matchesFilters e filters then acc ++ [e] else acc
    if limit ≤ (acc2.length : Int) then acc2
    else collectEntries filters limit rest acc2

/-- `AuditStore.GetEntries`. -/
def getEntries (file : List AuditEntry) (filters : List (String × String))
    (limit : Int) : List AuditEntry :=
  collectEntries filters limit (readEntriesM file) []

/-- `AuditStore.GetEntriesForUser`: filters on
`string(rune(userID))`. -/
def getEntriesForUser (file : List AuditEntry) (userID : Int) (limit : Int) :
    List AuditEntry :=
  getEntries file [("user_id", goStringOfRune userID)] limit

/-- `AuditStore.GetRecentEntries`: a nil filter map matches every
entry. -/
def getRecentEntries (file : List AuditEntry) (limit : Int) : List AuditEntry :=
  getEntries file [] limit

/-- An audit entry with entry number `k`, as appended in the C2
scenario trace (id and timestamp both derived from `k`). -/
def mkEntry (k : Nat) : AuditEntry :=
  { id := natDecRepr k, timestamp := k, userID := 1, instanceID := "",
    action := "test_connection", success := true }

/-- The audit file produced by five sequential appends with
`maxEntries = 3`. -/
def auditFileAfter5 : List AuditEntry :=
  [1, 2, 3, 4, 5].foldl (fun f k => auditLog 3 f (mkEntry k) (natDecRepr k) k) []

/-! ## String helpers mirroring Go's strings package -/

/-- `pat` is a prefix of `l` (strings.HasPrefix on char lists). -/
def listHasPfx : List Char → List Char → Bool
  | [], _ => true
  | _ :: _, [] => false
  | p :: ps, c :: cs => p = c && listHasPfx ps cs

/-- `pat` occurs inside `l` (strings.Contains on char lists). -/
def listHasSub : List Char → List Char → Bool
  | pat, [] => pat.isEmpty
  | pat, c :: cs => listHasPfx pat (c :: cs) || listHasSub pat cs

/-- Index of the first occurrence of `pat` in `l` (strings.Index; `none`
is Go's -1). -/
def listIdxOfSub : List Char → List Char → Option Nat
  | pat, [] => if pat.isEmpty then some 0 else none
  | pat, c :: cs =>
    if listHasPfx pat (c :: cs) then some 0
    else (listIdxOfSub pat cs).map (fun i => i + 1)

def strContainsSub (s pat : String) : Bool := listHasSub pat.toList s.toList

def strEndsWithSfx (s sfx : String) : Bool :=
  listHasPfx sfx.toList.reverse s.toList.reverse

def strStartsWithPfx (s pfx : String) : Bool := listHasPfx pfx.toList s.toList

/-- Whitespace recognized by strings.TrimSpace (the ASCII portion of
unicode.IsSpace, which is all the exposition format produces). -/
def isGoSpace (c : Char) : Bool :=
  c = ' ' || c = '\t' || c = '\n' || c = '\r' || c = '\x0b' || c = '\x0c'

def goTrimSpace (s : String) : String :=
  String.mk (((s.toList.dropWhile isGoSpace).reverse.dropWhile isGoSpace).reverse)

/-- `strings.SplitN(line, " ", 2)` when it yields two parts: the text
before the first space and everything after it; `none` when the line
has no space. -/
def splitN2Space (s : String) : Option (String × String) :=
  let l := s.toList
  let pre := l.takeWhile (fun c => c ≠ ' ')
  if pre.length = l.length then none
  else some (String.mk pre, String.mk (l.drop (pre.length + 1)))

def isDigitCh (c : Char) : Bool := 48 ≤ c.toNat && c.toNat ≤ 57

def digitsToNat (l : List Char) : Nat :=
  l.foldl (fun acc c => acc * 10 + (c.toNat - 48)) 0

/-- Numeric scan performed by `fmt.Sscanf(valueStr, "%f", &value)`:
skip leading spaces, then an optional sign, an integer part, an
optional fraction and an optional decimal exponent; at least one digit
must be present, and trailing text after the number is ignored. The
value is modeled exactly as a rational. -/
def parseGoFloat (s : String) : Option ℚ :=
  let l := s.toList.dropWhile isGoSpace
  let (sgn, l1) : ℚ × List Char :=
    match l with
    | '+' :: r => (1, r)
    | '-' :: r => (-1, r)
    | _ => (1, l)
  let ipart := l1.takeWhile isDigitCh
  let rest1 := l1.drop ipart.length
  let (fpart, rest2) : List Char × List Char :=
    match rest1 with
    | '.' :: r => (r.takeWhile isDigitCh, r.drop (r.takeWhile isDigitCh).length)
    | _ => ([], rest1)
  if ipart.isEmpty && fpart.isEmpty then none
  else
    let base : ℚ := (digitsToNat ipart : ℚ) + (digitsToNat fpart : ℚ) / ((10 : ℚ) ^ fpart.length)
    let withExp : Option ℚ :=
      match rest2 with
      | 'e' :: r => parseExpPart base r
      | 'E' :: r => parseExpPart base r
      | _ => some base
    withExp.map (fun v => sgn * v)
where
  parseExpPart (base : ℚ) (r : List Char) : Option ℚ :=
    let (esgn, r1) : Bool × List Char :=
      match r with
      | '+' :: rr => (false, rr)
      | '-' :: rr => (true, rr)
      | _ => (false, r)
    let edigits := r1.takeWhile isDigitCh
    if edigits.isEmpty then none
    else
      let e := digitsToNat edigits
      some (if esgn then base / ((10 : ℚ) ^ e) else base * ((10 : ℚ) ^ e))

/-! ## Prometheus exposition parser (internal/middleware, ParsePrometheusMetrics) -/

/-- Association-list map with Go's overwrite-on-insert semantics, for
the parser's string-keyed float maps. -/
def qInsert (m : List (String × ℚ)) (k : String) (v : ℚ) : List (String × ℚ) :=
  m.filter (fun p => p.1 ≠ k) ++ [(k, v)]

structure PrometheusMetrics where
  requestsTotal : ℚ
  responseSizes : List (String × ℚ)
  requestDurations : List (String × ℚ)
  requestsByCode : List (String × ℚ)
  requestsByHost : List (String × ℚ)
deriving DecidableEq, Repr

def initPM : PrometheusMetrics :=
  { requestsTotal := 0, responseSizes := [], requestDurations := [],
    requestsByCode := [], requestsByHost := [] }

/-- `extractLabel`: find `label="`, then the next `"`, and return the
text between them; an absent delimiter yields the empty string. -/
def extractLabel (metricName label : String) : String :=
  let pat := (label ++ "=\"").toList
  match listIdxOfSub pat metricName.toList with
  | none => ""
  | some i =>
    let start := i + pat.length
    let rest := metricName.toList.drop start
    match listIdxOfSub ['"'] rest with
    | none => ""
    | some j => String.mk (rest.take j)

/-- One iteration of the line loop in `ParsePrometheusMetrics`: trim
the line, skip empties and comments, split metric name from value on
the first space, skip lines whose value fails the numeric scan, then
dispatch on the metric name. The first dispatch arm requires the full
name — label braces included — to end in `_total`. -/
def processLine (pm : PrometheusMetrics) (rawLine : String) : PrometheusMetrics :=
  let line := goTrimSpace rawLine
  if line = "" then pm
  else if strStartsWithPfx line "#" then pm
  else
    match splitN2Space line with
    | none => pm
    | some (metricName, valueStr) =>
      match parseGoFloat valueStr with
      | none => pm
      | some value =>
        if strEndsWithSfx metricName "_total" && strContainsSub metricName "requests" then
          let pm1 := { pm with requestsTotal := value }
          let pm2 :=
            if strContainsSub metricName "code=" then
              { pm1 with requestsByCode := qInsert pm1.requestsByCode (extractLabel metricName "code") value }
            else pm1
          if strContainsSub metricName "host=" then
            { pm2 with requestsByHost := qInsert pm2.requestsByHost (extractLabel metricName "host") value }
          else pm2
        else if strContainsSub metricName "response_size" then
          { pm with responseSizes := qInsert pm.responseSizes "total" value }
        else if strContainsSub metricName "request_duration" then
          { pm with requestDurations := qInsert pm.requestDurations "total" value }
        else pm

/-- `strings.Split(s, "\n")` on the character list: the (possibly
empty) segments between newline characters; the empty string yields
one empty segment, as in Go. -/
def splitNl : List Char → List (List Char)
  | [] => [[]]
  | '\n' :: cs => [] :: splitNl cs
  | c :: cs =>
    match splitNl cs with
    | h :: t => (c :: h) :: t
    | [] => [[c]]

def linesOfGo (s : String) : List String := (splitNl s.toList).map String.mk

/-- `ParsePrometheusMetrics`: split on newlines, fold the line loop
over every line, and return the accumulated structure together with
the function's error channel (which the source never populates). -/
def parsePrometheusMetrics (metricsText : String) : Except String PrometheusMetrics :=
  Except.ok ((linesOfGo metricsText).foldl processLine initPM)

/-- A line is skipped by the parser's line loop: blank, a comment, no
space separator, or a value that fails the numeric scan. -/
def malformedLine (rawLine : String) : Bool :=
  let line := goTrimSpace rawLine
  line = "" || strStartsWithPfx line "#" ||
    match splitN2Space line with
    | none => true
    | some (_, valueStr) => (parseGoFloat valueStr).isNone

/-! ## Metrics snapshots and CollectMetrics (internal/caddy/analytics.go) -/

structure InstanceMetrics where
  instanceID : String
  timestamp : Int
  uptime : Int
  numRequests : Int
  totalTraffic : Int
  statusCodes : List (Int × Int)
deriving DecidableEq, Repr

/-- Go's float64-to-int64 conversion: truncation toward zero, here on
the rationals standing in for the parsed float values. -/
def qTruncToInt (q : ℚ) : Int := q.num / (q.den : Int)

/-- Numeric scan performed by `fmt.Sscanf(codeStr, "%d", &code)` with
its error ignored: leading spaces and an optional sign, then digits;
when no digit is present, `code` keeps its zero value. -/
def goSscanfInt (s : String) : Int :=
  let l := s.toList.dropWhile isGoSpace
  let (sgn, l1) : Int × List Char :=
    match l with
    | '+' :: r => (1, r)
    | '-' :: r => (-1, r)
    | _ => (1, l)
  let ds := l1.takeWhile isDigitCh
  if ds.isEmpty then 0 else sgn * (digitsToNat ds : Int)

/-- Map insertion for the `map[int]int64` of status-code counts. -/
def cInsert (m : List (Int × Int)) (k : Int) (v : Int) : List (Int × Int) :=
  m.filter (fun p => p.1 ≠ k) ++ [(k, v)]

/-- The status-code conversion loop shared by
`ConfigService.CollectMetrics` and `InstanceService.GetMetrics`:
`fmt.Sscanf(codeStr, "%d", &code)` then `StatusCodes[code] = int64(count)`. -/
def convertStatusCodes (m : List (String × ℚ)) : List (Int × Int) :=
  m.foldl (fun acc p => cInsert acc (goSscanfInt p.1) (qTruncToInt p.2)) []

/-- The snapshot `ConfigService.CollectMetrics` builds from a parsed
`PrometheusMetrics` value (uptime and traffic are left at zero in the
source). -/
def collectMetricsSnapshot (instanceID : String) (now : Int) (pm : PrometheusMetrics) :
    InstanceMetrics :=
  { instanceID := instanceID, timestamp := now, uptime := 0,
    numRequests := qTruncToInt pm.requestsTotal, totalTraffic := 0,
    statusCodes := convertStatusCodes pm.requestsByCode }

/-! ## Analytics store (internal/caddy/analytics.go)

One directory per instance, one file per snapshot, named
`<timestamp>.json` with timestamp layout `2006-01-02T15:04:05Z07:00`.
A directory listing entry carries its name, whether it is a
subdirectory, and the snapshot its contents parse to (`none` for an
unreadable or unparsable file). `GetMetrics` and `GetLatestMetrics`
slice `entry.Name()[:25]` before parsing — a slice that panics in Go
whenever the name is shorter than 25 bytes — so the model's result
type carries a panic outcome. -/

structure DirEntry where
  name : String
  isDir : Bool
  content : Option InstanceMetrics
deriving DecidableEq, Repr

inductive AnalyticsErr where
  | panicSliceOOR
  | fileReadErr
deriving DecidableEq, Repr

def isLeapYear (y : Nat) : Bool := (y % 4 = 0 && y % 100 ≠ 0) || y % 400 = 0

def daysInMonth (y mo : Nat) : Nat :=
  if mo = 2 then (if isLeapYear y then 29 else 28)
  else if mo = 4 || mo = 6 || mo = 9 || mo = 11 then 30
  else 31

/-- Days from 1970-01-01 to the given civil date (proleptic Gregorian,
the standard days-from-civil computation). -/
def daysFromCivil (y mo d : Int) : Int :=
  let y2 := if mo ≤ 2 then y - 1 else y
  let era := Int.fdiv y2 400
  let yoe := y2 - era * 400
  let mp := if mo ≤ 2 then mo + 9 else mo - 3
  let doy := Int.fdiv (153 * mp + 2) 5 + d - 1
  let doe := yoe * 365 + Int.fdiv yoe 4 - Int.fdiv yoe 100 + doy
  era * 146097 + doe - 719468

def digit2 (a b : Char) : Nat := (a.toNat - 48) * 10 + (b.toNat - 48)

def digit4 (a b c d : Char) : Nat :=
  ((a.toNat - 48) * 10 + (b.toNat - 48)) * 100 + (c.toNat - 48) * 10 + (d.toNat - 48)

/-- `time.Parse` of layout `2006-01-02T15:04:05Z07:00` applied to the
25-byte slice of a snapshot filename, yielding the instant as Unix
seconds. The whole 25 bytes must be consumed, so only the numeric-zone
form fits; a name written with the `Z` zone marker carries part of the
`.json` suffix inside the slice and fails to parse, as it does in the
source. Field ranges are validated as `time.Parse` does. -/
def parseTS25 (l : List Char) : Option Int :=
  match l with
  | [y1, y2, y3, y4, '-', mo1, mo2, '-', d1, d2, 'T',
     h1, h2, ':', mi1, mi2, ':', s1, s2, zs, o1, o2, ':', o3, o4] =>
    if (([y1, y2, y3, y4, mo1, mo2, d1, d2, h1, h2, mi1, mi2, s1, s2, o1, o2, o3, o4].all isDigitCh)
        && (zs = '+' || zs = '-')) then
      let y := digit4 y1 y2 y3 y4
      let mo := digit2 mo1 mo2
      let d := digit2 d1 d2
      let h := digit2 h1 h2
      let mi := digit2 mi1 mi2
      let s := digit2 s1 s2
      let oh := digit2 o1 o2
      let om := digit2 o3 o4
      if 1 ≤ mo && mo ≤ 12 && 1 ≤ d && d ≤ daysInMonth y mo
          && h ≤ 23 && mi ≤ 59 && s ≤ 59 then
        let offSign : Int := if zs = '+' then 1 else -1
        some (daysFromCivil y mo d * 86400 + (h : Int) * 3600 + (mi : Int) * 60 + (s : Int)
          - offSign * ((oh : Int) * 3600 + (om : Int) * 60))
      else none
    else none
  | _ => none

/-- The zero `time.Time` (January 1, year 1, UTC) as Unix seconds; the
initial value of `latestTime` in `GetLatestMetrics`. -/
def zeroTimeEpoch : Int := daysFromCivil 1 1 1 * 86400

/-- The directory loop of `AnalyticsStore.GetMetrics`: subdirectories
are skipped; `entry.Name()[:25]` panics on a short name; an unparsable
slice is skipped; a parsed timestamp is kept only when it is neither
before `start` nor after `fin`; unreadable or unparsable file contents
are skipped. -/
def getMetricsLoop (start fin : Int) : List DirEntry → Except AnalyticsErr (List InstanceMetrics)
  | [] => Except.ok []
  | e :: rest =>
    if e.isDir then getMetricsLoop start fin rest
    else if e.name.length < 25 then Except.error AnalyticsErr.panicSliceOOR
    else
      match parseTS25 (e.name.toList.take 25) with
      | none => getMetricsLoop start fin rest
      | some ts =>
        if ts < start ∨ fin < ts then getMetricsLoop start fin rest
        else
          match e.content with
          | none => getMetricsLoop start fin rest
          | some m => (getMetricsLoop start fin rest).map (fun l => m :: l)

/-- `AnalyticsStore.GetMetrics` over a directory listing (a missing
instance directory is the empty listing). -/
def analyticsGetMetrics (listing : List DirEntry) (start fin : Int) :
    Except AnalyticsErr (List InstanceMetrics) :=
  getMetricsLoop start fin listing

/-- The scan loop of `AnalyticsStore.GetLatestMetrics`: track the entry
with the maximal parsed timestamp, with the same short-name panic and
skip behavior as `GetMetrics`. -/
def getLatestScan : List DirEntry → Int → Option DirEntry → Except AnalyticsErr (Option DirEntry)
  | [], _, best => Except.ok best
  | e :: rest, bestT, best =>
    if e.isDir then getLatestScan rest bestT best
    else if e.name.length < 25 then Except.error AnalyticsErr.panicSliceOOR
    else
      match parseTS25 (e.name.toList.take 25) with
      | none => getLatestScan rest bestT best
      | some ts =>
        if bestT < ts then getLatestScan rest ts (some e)
        else getLatestScan rest bestT best

/-- `AnalyticsStore.GetLatestMetrics`: empty listing yields no
snapshot; otherwise scan for the latest file and read it (a read or
parse failure of that file is an error, not a skip). -/
def analyticsGetLatest (listing : List DirEntry) : Except AnalyticsErr (Option InstanceMetrics) :=
  if listing.length = 0 then Except.ok none
  else
    (getLatestScan listing zeroTimeEpoch none).bind (fun best =>
      match best with
      | none => Except.ok none
      | some e =>
        match e.content with
        | none => Except.error AnalyticsErr.fileReadErr
        | some m => Except.ok (some m))

/-! ## Concrete scenario data used by the claim theorems -/

def c4Inst : CaddyInstance :=
  { id := "inst_1", name := "old", url := "http://a", apiKeyFile := "",
    status := InstanceStatus.unknown, tags := [], lastPing := 0,
    createdAt := 0, updatedAt := 0 }

def c4Req : InstanceRequest :=
  { name := "new", url := "http://b", apiKeyFile := "", tags := [] }

def c5M : InstanceMetrics :=
  { instanceID := "i", timestamp := 1748728800, uptime := 0,
    numRequests := 1, totalTraffic := 0, statusCodes := [] }

def c5File : DirEntry :=
  { name := "2025-06-01T00:00:00+02:00.json", isDir := false, content := some c5M }

def c5WitnessFile : DirEntry :=
  { name := "2025-06-01T00:00:01+02:00.json", isDir := false, content := some c5M }

def c7Entry : AuditEntry :=
  { id := "a", timestamp := 0, userID := 0, instanceID := "", action := "view_logs",
    success := true }

def c8ReqA : InstanceRequest := { name := "a", url := "u1", apiKeyFile := "", tags := [] }

def c8ReqB : InstanceRequest := { name := "b", url := "u2", apiKeyFile := "", tags := [] }

def c8InstA : CaddyInstance :=
  { id := generateID 5, name := "a", url := "u1", apiKeyFile := "",
    status := InstanceStatus.unknown, tags := [], lastPing := 0,
    createdAt := 5, updatedAt := 5 }

def c8InstB : CaddyInstance :=
  { id := generateID 5, name := "b", url := "u2", apiKeyFile := "",
    status := InstanceStatus.unknown, tags := [], lastPing := 0,
    createdAt := 5, updatedAt := 5 }

def c8InstA6 : CaddyInstance :=
  { id := generateID 6, name := "a", url := "u1", apiKeyFile := "",
    status := InstanceStatus.unknown, tags := [], lastPing := 0,
    createdAt := 6, updatedAt := 6 }

def c8Reg1 : Registry := (storeCreate [] c8ReqA 5 true).1

def c9Inst : CaddyInstance :=
  { id := "i", name := "n", url := "u", apiKeyFile := "",
    status := InstanceStatus.unknown, tags := [], lastPing := 0,
    createdAt := 0, updatedAt := 0 }

def c3Input : String :=
  "caddy_http_requests_total\x7bcode=\"200\",host=\"a.com\"\x7d 42"

/-- The structure `ParsePrometheusMetrics` actually produces for
`c3Input`: nothing extracted at all. -/
def c3ParsedPM : PrometheusMetrics := initPM

/-! ## Helper lemmas -/

theorem natDigitsAux_eq (fuel : Nat) :
    ∀ n : Nat, n ≤ fuel → natDigitsAux fuel n = Nat.digits 10 n := by
  induction fuel with
  | zero => intro n h; interval_cases n; simp [natDigitsAux]
  | succ f ih =>
    intro n h
    by_cases hn : n = 0
    · simp [natDigitsAux, hn]
    · have hpos : 0 < n := Nat.pos_of_ne_zero hn
      rw [Nat.digits_def' (by norm_num : (1 : Nat) < 10) hpos]
      simp only [natDigitsAux, hn, if_false]
      congr 1
      apply ih
      have : n / 10 < n := Nat.div_lt_self hpos (by norm_num)
      omega

theorem natDigits_eq (n : Nat) : natDigits n = Nat.digits 10 n :=
  natDigitsAux_eq n n (Nat.le_refl n)

theorem decode_digitsToChars (n : Nat) : decodeChars (digitsToChars (natDigits n)) = n := by
  rw [natDigits_eq]
  unfold decodeChars digitsToChars
  rw [List.map_map]
  have hmap : ((Nat.digits 10 n).map ((fun c => c.toNat - 48) ∘ fun d => Char.ofNat (48 + d)))
      = (Nat.digits 10 n).map id := by
    apply List.map_congr_left
    intro d hd
    have hd10 : d < 10 := Nat.digits_lt_base (by norm_num) hd
    simp only [Function.comp_apply, id]
    interval_cases d <;> decide
  rw [hmap, List.map_id, Nat.ofDigits_digits]

theorem natDecRepr_inj (m n : Nat) (h : natDecRepr m = natDecRepr n) : m = n := by
  have hdata := congrArg String.data h
  by_cases hm : m = 0 <;> by_cases hn : n = 0
  · omega
  · exfalso
    unfold natDecRepr at hdata
    simp [hm, hn] at hdata
    have hdec := decode_digitsToChars n
    have h3 : digitsToChars (natDigits n) = ['0'] := by
      have := congrArg List.reverse hdata
      simpa using this.symm
    rw [h3] at hdec
    have : decodeChars ['0'] = 0 := by decide
    omega
  · exfalso
    unfold natDecRepr at hdata
    simp [hm, hn] at hdata
    have hdec := decode_digitsToChars m
    have h3 : digitsToChars (natDigits m) = ['0'] := by
      have := congrArg List.reverse hdata
      simpa using this
    rw [h3] at hdec
    have : decodeChars ['0'] = 0 := by decide
    omega
  · unfold natDecRepr at hdata
    simp [hm, hn] at hdata
    have hdec := decode_digitsToChars m
    rw [hdata, decode_digitsToChars n] at hdec
    omega

theorem generateID_inj (t1 t2 : Nat) (h : generateID t1 = generateID t2) : t1 = t2 := by
  unfold generateID at h
  have hdata := congrArg String.data h
  simp only [String.data_append] at hdata
  have h2 : (natDecRepr t1).data = (natDecRepr t2).data :=
    List.append_cancel_left hdata
  apply natDecRepr_inj
  cases e1 : natDecRepr t1
  cases e2 : natDecRepr t2
  rw [e1, e2] at h2
  simp at h2
  rw [h2]

theorem mLookup_mInsert (r : Registry) (k : String) (v : CaddyInstance) :
    mLookup (mInsert r k v) k = some v := by
  unfold mLookup mInsert
  rw [List.find?_append]
  have h1 : (mErase r k).find? (fun p => p.1 == k) = none := by
    rw [List.find?_eq_none]
    intro p hp
    unfold mErase at hp
    have hpk := (List.mem_filter.mp hp).2
    simpa using hpk
  rw [h1]
  simp [List.find?]

theorem mErase_of_lookup_none (r : Registry) (k : String) (h : mLookup r k = none) :
    mErase r k = r := by
  unfold mLookup at h
  have hfind : r.find? (fun p => p.1 == k) = none := by
    cases hf : r.find? (fun p => p.1 == k)
    · rfl
    · rw [hf] at h; simp at h
  rw [List.find?_eq_none] at hfind
  unfold mErase
  apply List.filter_eq_self.mpr
  intro p hp
  simpa using hfind p hp

theorem storeCreate_rollback (r : Registry) (req : InstanceRequest) (t : Nat)
    (h : mLookup r (generateID t) = none) :
    (storeCreate r req t false).1 = r ∧ (storeCreate r req t false).2 = none := by
  refine ⟨?_, rfl⟩
  show mErase (mInsert r (generateID t) _) (generateID t) = r
  unfold mInsert mErase
  rw [List.filter_append]
  have h1 : mErase r (generateID t) = r := mErase_of_lookup_none r (generateID t) h
  unfold mErase at h1
  rw [h1, h1]
  simp

/-! ## Claim theorems -/

/-- C1: the claim says every registry mutation holds the exclusive lock
for the in-memory update plus the disk write and, in particular,
completes and releases the lock. On the code this is false in the
strongest way: each mutating method takes `mu.Lock()` and then calls
`save`, which takes `mu.RLock()` on the same non-reentrant `RWMutex`,
so from every lock state the lock-operation trace of Create, Update,
Delete and UpdateStatus blocks before completing — the call
self-deadlocks and never releases the lock. -/
theorem c1_registry_mutations_self_deadlock :
    ∀ s : LockState,
      runLockOps s createLockOps = none ∧
      runLockOps s updateLockOps = none ∧
      runLockOps s deleteLockOps = none ∧
      runLockOps s updateStatusLockOps = none := by
  intro ⟨w, r⟩
  refine ⟨?_, ?_, ?_, ?_⟩ <;>
    cases w <;> by_cases hr : r = 0 <;>
      simp [runLockOps, createLockOps, updateLockOps, deleteLockOps,
        updateStatusLockOps, saveLockOps, lockStep, hr]

/-- C2: with `maxEntries = 3`, five sequential appends leave exactly
entries 1, 2 and 3 — the three OLDEST — retrievable, not the three most
recent as the claim states: `rotateIfNeeded` slices the tail of the
already-reversed (newest-first) entry list, so each rotation discards
the newest entries, contradicting its own `Keep only the most recent
entries` comment. -/
theorem c2_rotation_keeps_oldest_entries :
    getRecentEntries auditFileAfter5 1000000 = [mkEntry 3, mkEntry 2, mkEntry 1] ∧
    mkEntry 4 ∉ getRecentEntries auditFileAfter5 1000000 ∧
    mkEntry 5 ∉ getRecentEntries auditFileAfter5 1000000 := by decide

/-- C3: for the exposition line
`caddy_http_requests_total{code="200",host="a.com"} 42` the parser
extracts nothing: the dispatch arm checks `HasSuffix(metricName,
"_total")` on the name with its label braces still attached, so the
labeled line matches no arm. The parsed structure is the initial one,
and the snapshot built from it has an empty status-code map and zero
request total instead of the claimed `{"200": 42}`. -/
theorem c3_labeled_requests_total_not_extracted :
    parsePrometheusMetrics c3Input = Except.ok c3ParsedPM ∧
    c3ParsedPM.requestsByCode = [] ∧
    (collectMetricsSnapshot "inst1" 0 c3ParsedPM).statusCodes = [] ∧
    (collectMetricsSnapshot "inst1" 0 c3ParsedPM).numRequests = 0 := by decide

/-- C6: a directory entry whose name is shorter than the 25-byte
timestamp layout is not skipped: the slice `entry.Name()[:25]` in both
`GetMetrics` and `GetLatestMetrics` panics, so neither call returns
normally on the listing `["x.json"]`, contrary to the claim. -/
theorem c6_short_filename_panics :
    analyticsGetMetrics [{ name := "x.json", isDir := false, content := none }] 0 0
        = Except.error AnalyticsErr.panicSliceOOR ∧
    analyticsGetLatest [{ name := "x.json", isDir := false, content := none }]
        = Except.error AnalyticsErr.panicSliceOOR := by decide

/-- C7: `GetEntriesForUser` does not return exactly the queried actor's
entries: the `user_id` filter arm only rejects entries with a nonzero
`UserID`, so an entry whose actor id is 0 is returned for every queried
actor — here the stored entry of actor 0 is returned for actor 7. -/
theorem c7_zero_actor_entry_returned_for_any_actor :
    getEntriesForUser [c7Entry] 7 10 = [c7Entry] ∧ c7Entry.userID ≠ 7 := by decide

/-- C5 counterexample: a snapshot file whose parsed filename timestamp
equals the `end` bound of the query is returned by `GetMetrics`, so the
claimed half-open interval `[start, end)` is wrong: the code keeps a
timestamp unless it is `Before(start)` or `After(end)`, a closed
interval. -/
theorem c5_snapshot_at_end_returned :
    analyticsGetMetrics [c5File] 0 1748728800 = Except.ok [c5M] ∧
    c5M.timestamp = 1748728800 ∧
    parseTS25 (c5File.name.toList.take 25) = some 1748728800 := by decide

/-- C8 counterexample: two successful creates whose `UnixNano` clock
readings coincide receive the same generated id, and the second create
silently overwrites the first descriptor, so ids are not unique across
every pair of distinct successful creates. -/
theorem c8_same_nanosecond_creates_collide :
    (storeCreate [] c8ReqA 5 true).2 = some c8InstA ∧
    (storeCreate c8Reg1 c8ReqB 5 true).2 = some c8InstB ∧
    c8InstA.id = c8InstB.id ∧ c8InstA ≠ c8InstB ∧ c8ReqA ≠ c8ReqB ∧
    (storeCreate c8Reg1 c8ReqB 5 true).1 = [(generateID 5, c8InstB)] := by decide

/-- C9 counterexample: a ping that fails because the remote answered
with a non-2xx status (here 500) — a remote response, not a
network-level Unreachable — still drives the stored status to
`offline`, while the claim says any failure other than Unreachable
leaves the status unchanged. -/
theorem c9_remote_error_sets_offline :
    (testConnection [("i", c9Inst)] "i" true (PingOutcome.httpStatus 500) 9).2
        = TCResult.errConnFailed (PingErr.badStatus 500) ∧
    mLookup (testConnection [("i", c9Inst)] "i" true (PingOutcome.httpStatus 500) 9).1 "i"
        = some { c9Inst with status := InstanceStatus.offline, lastPing := 9, updatedAt := 9 } ∧
    c9Inst.status = InstanceStatus.unknown := by decide

/-- C4 counterexample: when the disk write during `Update` fails, the
in-memory descriptor is NOT rolled back — the registry afterwards
reports the new field values even though the call returned an error, so
the registry can report state that differs from the disk copy. -/
theorem c4_update_write_failure_not_rolled_back :
    (storeUpdate [("inst_1", c4Inst)] "inst_1" c4Req 5 false).2
        = Except.error StoreErr.saveFailed ∧
    mLookup (storeUpdate [("inst_1", c4Inst)] "inst_1" c4Req 5 false).1 "inst_1"
        = some (applyInstanceRequest c4Inst c4Req 5) ∧
    applyInstanceRequest c4Inst c4Req 5 ≠ c4Inst := by decide

/-- C4 (amended): a write failure during `Create` does roll back — with
a fresh generated id the registry is left exactly as before and no
descriptor is returned — but a write failure during `Update` leaves the
in-memory descriptor permanently holding the new field values while
only the error is surfaced: the rollback guarantee holds for `Create`
only, and after a failed `Update` the registry reports state that
differs from the disk copy. -/
theorem c4_write_failure_rollback_amended :
    (∀ (r : Registry) (req : InstanceRequest) (t : Nat),
       mLookup r (generateID t) = none →
       (storeCreate r req t false).1 = r ∧ (storeCreate r req t false).2 = none) ∧
    (∀ (r : Registry) (id : String) (req : InstanceRequest) (now : Nat) (inst : CaddyInstance),
       mLookup r id = some inst →
       (storeUpdate r id req now false).2 = Except.error StoreErr.saveFailed ∧
       mLookup (storeUpdate r id req now false).1 id = some (applyInstanceRequest inst req now)) := by
  refine ⟨fun r req t h => storeCreate_rollback r req t h, ?_⟩
  intro r id req now inst h
  unfold storeUpdate
  rw [h]
  exact ⟨rfl, mLookup_mInsert r id (applyInstanceRequest inst req now)⟩

/-- C4 witness: the amended statement evaluated on a one-descriptor
registry and on an empty registry. -/
theorem c4_write_failure_rollback_witness :
    ((storeUpdate [("inst_1", c4Inst)] "inst_1" c4Req 7 false).2
        = Except.error StoreErr.saveFailed ∧
     mLookup (storeUpdate [("inst_1", c4Inst)] "inst_1" c4Req 7 false).1 "inst_1"
        = some (applyInstanceRequest c4Inst c4Req 7)) ∧
    (storeCreate [] c4Req 5 false).1 = [] :=
  ⟨c4_write_failure_rollback_amended.2 [("inst_1", c4Inst)] "inst_1" c4Req 7 c4Inst (by decide),
   (c4_write_failure_rollback_amended.1 [] c4Req 5 (by decide)).1⟩

/-- C8 (amended): instance ids are injective images of the `UnixNano`
clock reading at creation: two creates whose clock readings differ
always carry different ids, and a create at reading `t2` can never
reproduce the id generated at a different reading `t1` — in particular
an id freed by delete is only ever reassigned if the clock repeats the
original nanosecond reading (as the counterexample shows it does when
readings coincide). -/
theorem c8_ids_unique_per_distinct_timestamp (t1 t2 : Nat) (h : t1 ≠ t2) :
    generateID t1 ≠ generateID t2 ∧
    ∀ (r : Registry) (req : InstanceRequest) (inst : CaddyInstance),
      (storeCreate r req t2 true).2 = some inst → inst.id ≠ generateID t1 := by
  have hne : generateID t1 ≠ generateID t2 := fun he => h (generateID_inj t1 t2 he)
  refine ⟨hne, ?_⟩
  intro r req inst hc
  have hc2 : inst.id = generateID t2 := by
    unfold storeCreate at hc
    simp at hc
    rw [← hc]
  rw [hc2]
  exact fun hh => hne hh.symm

/-- C8 witness: the amended statement evaluated at clock readings 5 and
6. -/
theorem c8_ids_unique_witness :
    generateID 5 ≠ generateID 6 ∧ c8InstA6.id ≠ generateID 5 :=
  ⟨(c8_ids_unique_per_distinct_timestamp 5 6 (by decide)).1,
   (c8_ids_unique_per_distinct_timestamp 5 6 (by decide)).2 [] c8ReqA c8InstA6 (by decide)⟩

/-- C9 (amended): `TestConnection` sets the status to `online` when the
ping succeeds and to `offline` on ANY ping failure — network-level
transport errors and remote non-2xx responses alike — while only a
client-construction failure (unreadable credential file) leaves the
stored status unchanged while surfacing the error. -/
theorem c9_testConnection_status_transitions (r : Registry) (id : String)
    (inst : CaddyInstance) (ping : PingOutcome) (now : Nat)
    (h : mLookup r id = some inst) :
    testConnection r id false ping now = (r, TCResult.errClientBuild) ∧
    (clientPing ping = Except.ok () →
       (testConnection r id true ping now).2 = TCResult.ok ∧
       mLookup (testConnection r id true ping now).1 id =
         some { inst with status := InstanceStatus.online, lastPing := now, updatedAt := now }) ∧
    (∀ e, clientPing ping = Except.error e →
       (testConnection r id true ping now).2 = TCResult.errConnFailed e ∧
       mLookup (testConnection r id true ping now).1 id =
         some { inst with status := InstanceStatus.offline, lastPing := now, updatedAt := now }) := by
  refine ⟨?_, ?_, ?_⟩
  · unfold testConnection
    rw [h]
    rfl
  · intro hp
    unfold testConnection
    rw [h, hp]
    refine ⟨rfl, ?_⟩
    unfold storeUpdateStatus
    rw [h]
    exact mLookup_mInsert r id _
  · intro e hp
    unfold testConnection
    rw [h, hp]
    refine ⟨rfl, ?_⟩
    unfold storeUpdateStatus
    rw [h]
    exact mLookup_mInsert r id _

/-- C9 witness: the amended statement evaluated on a one-descriptor
registry, for a successful ping and for the client-construction
failure path. -/
theorem c9_testConnection_status_transitions_witness :
    testConnection [("i", c9Inst)] "i" false (PingOutcome.httpStatus 200) 3
        = ([("i", c9Inst)], TCResult.errClientBuild) ∧
    (testConnection [("i", c9Inst)] "i" true (PingOutcome.httpStatus 200) 3).2 = TCResult.ok ∧
    mLookup (testConnection [("i", c9Inst)] "i" true (PingOutcome.httpStatus 200) 3).1 "i"
        = some { c9Inst with status := InstanceStatus.online, lastPing := 3, updatedAt := 3 } :=
  have hl : mLookup [("i", c9Inst)] "i" = some c9Inst := by decide
  ⟨(c9_testConnection_status_transitions [("i", c9Inst)] "i" c9Inst
      (PingOutcome.httpStatus 200) 3 hl).1,
   ((c9_testConnection_status_transitions [("i", c9Inst)] "i" c9Inst
      (PingOutcome.httpStatus 200) 3 hl).2.1 (by decide)).1,
   ((c9_testConnection_status_transitions [("i", c9Inst)] "i" c9Inst
      (PingOutcome.httpStatus 200) 3 hl).2.1 (by decide)).2⟩

/-- C5 (amended): on any listing whose names are all at least as long
as the 25-byte timestamp slice (so the slice cannot panic),
`GetMetrics` returns exactly the stored snapshots whose parsed filename
timestamp lies in the CLOSED interval `[start, end]` — subdirectories,
unparsable names and unreadable contents are skipped, and a snapshot
timestamped exactly `end` IS returned (the code drops a file only when
its timestamp is `Before(start)` or `After(end)`). -/
theorem c5_query_range_closed_interval (listing : List DirEntry) (start fin : Int)
    (h : ∀ e ∈ listing, 25 ≤ e.name.length) :
    analyticsGetMetrics listing start fin = Except.ok (listing.filterMap (fun e =>
      if e.isDir then none
      else
        match parseTS25 (e.name.toList.take 25) with
        | none => none
        | some ts => if start ≤ ts ∧ ts ≤ fin then e.content else none)) := by
  unfold analyticsGetMetrics
  induction listing with
  | nil => rfl
  | cons e rest ih =>
    have he : 25 ≤ e.name.length := h e (List.mem_cons_self e rest)
    have hrest : ∀ x ∈ rest, 25 ≤ x.name.length :=
      fun x hx => h x (List.mem_cons_of_mem e hx)
    have ihr := ih hrest
    have hlen : ¬(e.name.length < 25) := by omega
    by_cases hd : e.isDir
    · simp [getMetricsLoop, hd, List.filterMap_cons, ihr]
    · cases hp : parseTS25 (List.take 25 e.name.data) with
      | none =>
        simp [getMetricsLoop, String.toList, hd, hlen, hp, List.filterMap_cons, ihr]
      | some ts =>
        by_cases hin : ts < start ∨ fin < ts
        · have hnotin : ¬(start ≤ ts ∧ ts ≤ fin) := by omega
          simp [getMetricsLoop, String.toList, hd, hlen, hp, hin, hnotin,
            List.filterMap_cons, ihr]
        · have hin2 : start ≤ ts ∧ ts ≤ fin := by omega
          cases hc : e.content with
          | none =>
            simp [getMetricsLoop, String.toList, hd, hlen, hp, hin, hin2, hc,
              List.filterMap_cons, ihr]
          | some m =>
            simp [getMetricsLoop, String.toList, Except.map, hd, hlen, hp, hin, hin2, hc,
              List.filterMap_cons, ihr]

/-- C5 witness: the amended statement evaluated on a one-file listing
whose timestampparses to one second past the query's `end` bound, so
the snapshot is excluded. -/
theorem c5_query_range_closed_interval_witness :
    analyticsGetMetrics [c5WitnessFile] 0 1748728800 = Except.ok [] :=
  (c5_query_range_closed_interval [c5WitnessFile] 0 1748728800 (by decide)).trans (by decide)

/-- C10: `ParsePrometheusMetrics` is total: for every input string it
returns a parsed structure and a nil error, and every malformed line —
blank, comment, no space separator, or a value failing the numeric
scan — leaves the accumulated structure untouched, so malformed lines
never affect what other lines extract (and, the function being pure,
re-parsing the same text yields the same output). -/
theorem c10_parser_total_and_skips_malformed (s : String) :
    (∃ pm, parsePrometheusMetrics s = Except.ok pm) ∧
    (∀ (pm : PrometheusMetrics) (line : String),
       malformedLine line = true → processLine pm line = pm) := by
  refine ⟨⟨_, rfl⟩, ?_⟩
  intro pm line hm
  unfold malformedLine at hm
  unfold processLine
  by_cases h1 : goTrimSpace line = ""
  · simp [h1]
  · by_cases h2 : strStartsWithPfx (goTrimSpace line) "#"
    · simp [h1, h2]
    · cases h3 : splitN2Space (goTrimSpace line) with
      | none => simp [h1, h2, h3]
      | some pr =>
        obtain ⟨mn, vs⟩ := pr
        simp only [h1, h2, h3, Bool.false_or, decide_eq_true_eq,
          if_neg] at hm
        cases h4 : parseGoFloat vs with
        | none => simp [h1, h2, h3, h4]
        | some v =>
          exfalso
          simp [h1, h2, h3, h4] at hm

/-- C10 witness: totality and the skip property evaluated on concrete
texts. -/
theorem c10_parser_total_witness :
    processLine initPM "garbage" = initPM ∧
    ∃ pm, parsePrometheusMetrics "caddy_http_requests_total 42" = Except.ok pm :=
  ⟨(c10_parser_total_and_skips_malformed "").2 initPM "garbage" (by decide),
   (c10_parser_total_and_skips_malformed "caddy_http_requests_total 42").1⟩

end Godash
